import Mathlib

/-!
Verification of the ai-news-bot deduplicated ingestion pipeline.

Shallow embedding of the bot's core state-tracking and orchestration logic
(`src/state.ts`, `src/index.ts`, `src/summarizer.ts`, `src/slack.ts`) and
proofs of the specification's claims about it.

Conventions:
* JavaScript strings are modelled as Lean `String` (the data involved is
  ASCII or small Unicode, where JS UTF-16 code units coincide with chars).
* JavaScript objects used as string-keyed records are modelled as
  association lists with JS spread/rest semantics (`recSet`, `recDelete`).
* Machine words in SHA-256 are `Nat` reduced mod `2^32`.
* Fallible calls (`try`/`catch` boundaries) are modelled with `Except`;
  external collaborators (scraper, LLM, Slack) are oracle parameters.
* Side effects are reified as an explicit trace of `Eff` values.
-/

set_option maxRecDepth 40000

namespace NewsBot

/-! ## SHA-256 (embedding of Node `createHash('sha256')`)

`articleId` in `src/state.ts` is
`createHash('sha256').update(url).digest('hex').slice(0, 16)`.
Node hashes the UTF-8 encoding of the string.  We implement FIPS 180-4
SHA-256 over byte lists, words as `Nat` mod `2^32`. -/

def p32 : Nat := 4294967296

def mask32 (x : Nat) : Nat := x % p32

def not32 (x : Nat) : Nat := 4294967295 - x

def rotr32 (n x : Nat) : Nat := mask32 ((x >>> n) ||| (x <<< (32 - n)))

def smallSigma0 (x : Nat) : Nat := (rotr32 7 x) ^^^ (rotr32 18 x) ^^^ (x >>> 3)

def smallSigma1 (x : Nat) : Nat := (rotr32 17 x) ^^^ (rotr32 19 x) ^^^ (x >>> 10)

def bigSigma0 (x : Nat) : Nat := (rotr32 2 x) ^^^ (rotr32 13 x) ^^^ (rotr32 22 x)

def bigSigma1 (x : Nat) : Nat := (rotr32 6 x) ^^^ (rotr32 11 x) ^^^ (rotr32 25 x)

def chFn (e f g : Nat) : Nat := (e &&& f) ^^^ ((not32 (mask32 e)) &&& g)

def majFn (a b c : Nat) : Nat := (a &&& b) ^^^ (a &&& c) ^^^ (b &&& c)

/-- The 64 SHA-256 round constants (FIPS 180-4 §4.2.2). -/
def sha256K : List Nat :=
  [1116352408, 1899447441, 3049323471, 3921009573, 961987163, 1508970993,
   2453635748, 2870763221, 3624381080, 310598401, 607225278, 1426881987,
   1925078388, 2162078206, 2614888103, 3248222580, 3835390401, 4022224774,
   264347078, 604807628, 770255983, 1249150122, 1555081692, 1996064986,
   2554220882, 2821834349, 2952996808, 3210313671, 3336571891, 3584528711,
   113926993, 338241895, 666307205, 773529912, 1294757372, 1396182291,
   1695183700, 1986661051, 2177026350, 2456956037, 2730485921, 2820302411,
   3259730800, 3345764771, 3516065817, 3600352804, 4094571909, 275423344,
   430227734, 506948616, 659060556, 883997877, 958139571, 1322822218,
   1537002063, 1747873779, 1955562222, 2024104815, 2227730452, 2361852424,
   2428436474, 2756734187, 3204031479, 3329325298]

/-- The working variables / hash value of SHA-256: eight 32-bit words. -/
structure Hash8 where
  a : Nat
  b : Nat
  c : Nat
  d : Nat
  e : Nat
  f : Nat
  g : Nat
  h : Nat
deriving Repr, DecidableEq

/-- Initial hash value (FIPS 180-4 §5.3.3). -/
def sha256H0 : Hash8 :=
  ⟨1779033703, 3144134277, 1013904242, 2773480762,
   1359893119, 2600822924, 528734635, 1541459225⟩

/-- Big-endian byte expansion of `x` into `n` bytes. -/
def toBytesBE (n x : Nat) : List Nat :=
  (List.range n).map (fun i => (x >>> (8 * (n - 1 - i))) % 256)

/-- SHA-256 padding: append `0x80`, zeros to 56 mod 64, then the 64-bit
big-endian bit length. -/
def padMessage (msg : List Nat) : List Nat :=
  let padZeros := (119 - msg.length % 64) % 64
  msg ++ [0x80] ++ List.replicate padZeros 0 ++ toBytesBE 8 (8 * msg.length)

/-- Split a byte list into 64-byte chunks (fuel-based structural recursion so
that the definition reduces inside the kernel; `l.length` fuel always
suffices since every step consumes at least one element). -/
def chunksAux : Nat → List Nat → List (List Nat)
  | _, [] => []
  | 0, _ :: _ => []
  | fuel + 1, x :: xs => ((x :: xs).take 64) :: chunksAux fuel ((x :: xs).drop 64)

/-- Split a byte list into 64-byte chunks. -/
def chunks64 (l : List Nat) : List (List Nat) :=
  chunksAux l.length l

/-- Group bytes into big-endian 32-bit words. -/
def bytesToWords : List Nat → List Nat
  | b0 :: b1 :: b2 :: b3 :: rest => (((b0 * 256 + b1) * 256 + b2) * 256 + b3) :: bytesToWords rest
  | _ => []

/-- One message-schedule extension step: append `W[t]` computed from
`W[t-16]`, `W[t-15]`, `W[t-7]`, `W[t-2]` (for `t = ws.length`). -/
def scheduleStep (ws : List Nat) : List Nat :=
  let t := ws.length
  let w15 := ws.getD (t - 15) 0
  let w2 := ws.getD (t - 2) 0
  let w16 := ws.getD (t - 16) 0
  let w7 := ws.getD (t - 7) 0
  ws ++ [mask32 (w16 + smallSigma0 w15 + w7 + smallSigma1 w2)]

/-- Run `n` schedule-extension steps. -/
def extendSchedule : Nat → List Nat → List Nat
  | 0, ws => ws
  | n + 1, ws => extendSchedule n (scheduleStep ws)

/-- One SHA-256 compression round with round constant `k` and schedule
word `w`. -/
def sha256Round (st : Hash8) (kw : Nat × Nat) : Hash8 :=
  let t1 := mask32 (st.h + bigSigma1 st.e + chFn st.e st.f st.g + kw.1 + kw.2)
  let t2 := mask32 (bigSigma0 st.a + majFn st.a st.b st.c)
  ⟨mask32 (t1 + t2), st.a, st.b, st.c, mask32 (st.d + t1), st.e, st.f, st.g⟩

/-- Compress one 64-byte chunk into the running hash value. -/
def compressChunk (st : Hash8) (chunk : List Nat) : Hash8 :=
  let ws := extendSchedule 48 (bytesToWords chunk)
  let r := (sha256K.zip ws).foldl sha256Round st
  ⟨mask32 (st.a + r.a), mask32 (st.b + r.b), mask32 (st.c + r.c), mask32 (st.d + r.d),
   mask32 (st.e + r.e), mask32 (st.f + r.f), mask32 (st.g + r.g), mask32 (st.h + r.h)⟩

/-- SHA-256 digest of a byte list, as eight 32-bit words. -/
def sha256Digest (msg : List Nat) : Hash8 :=
  (chunks64 (padMessage msg)).foldl compressChunk sha256H0

/-- The sixteen lowercase hex digits. -/
def hexDigits : List Char :=
  ("0123456789abcdef").data

/-- A 32-bit word as 8 lowercase hex characters, most significant first. -/
def wordToHex (w : Nat) : String :=
  String.mk ((List.range 8).map (fun i => hexDigits.getD ((w >>> (4 * (7 - i))) % 16) ('0')))

/-- Lowercase hex rendering of a SHA-256 digest (Node `digest('hex')`). -/
def sha256Hex (msg : List Nat) : String :=
  let d := sha256Digest msg
  wordToHex d.a ++ wordToHex d.b ++ wordToHex d.c ++ wordToHex d.d ++
  wordToHex d.e ++ wordToHex d.f ++ wordToHex d.g ++ wordToHex d.h

/-- UTF-8 encoding of one character (what Node `hash.update(string)` hashes). -/
def utf8Bytes (c : Char) : List Nat :=
  let n := c.toNat
  if n < 128 then [n]
  else if n < 2048 then [192 ||| (n >>> 6), 128 ||| (n &&& 63)]
  else if n < 65536 then
    [224 ||| (n >>> 12), 128 ||| ((n >>> 6) &&& 63), 128 ||| (n &&& 63)]
  else
    [240 ||| (n >>> 18), 128 ||| ((n >>> 12) &&& 63), 128 ||| ((n >>> 6) &&& 63), 128 ||| (n &&& 63)]

/-- UTF-8 encoding of a string as a byte list. -/
def utf8Encode (s : String) : List Nat :=
  s.data.foldr (fun c acc => utf8Bytes c ++ acc) []

/-- JS `String.prototype.slice(0, n)` (prefix of `n` UTF-16 units). -/
def jsSlice0 (s : String) (n : Nat) : String :=
  String.mk (s.data.take n)

/-- Embedding of `src/state.ts` `articleId`:
`createHash('sha256').update(url).digest('hex').slice(0, 16)`. -/
def articleId (url : String) : String :=
  jsSlice0 (sha256Hex (utf8Encode url)) 16

/-! ## String-keyed records (JS object semantics)

`state.seen` and `state.alertedSources` are plain JS objects used as
string-keyed maps.  We model them as association lists:
* `{...m, [k]: v}` (`recSet`) replaces the value in place when `k` is
  already a key (keeping its position; a JS object's keys are unique, so
  replacing the first occurrence is exact on every reachable record) and
  appends otherwise;
* `const { [k]: _, ...rest } = m` (`recDelete`) drops the key;
* `k in m` (`recHas`) and `m[k]` (`recGet`) look up. -/

abbrev RecordMap (V : Type) : Type := List (String × V)

def recGet {V : Type} (m : RecordMap V) (k : String) : Option V :=
  (m.find? (fun p => p.1 == k)).map Prod.snd

def recHas {V : Type} (m : RecordMap V) (k : String) : Bool :=
  m.any (fun p => p.1 == k)

def recSet {V : Type} (m : RecordMap V) (k : String) (v : V) : RecordMap V :=
  match m with
  | [] => [(k, v)]
  | p :: t => if p.1 == k then (k, v) :: t else p :: recSet t k v

def recDelete {V : Type} (m : RecordMap V) (k : String) : RecordMap V :=
  m.filter (fun p => p.1 != k)

def recKeys {V : Type} (m : RecordMap V) : List String :=
  m.map Prod.fst

/-! ## `src/state.ts` -/

/-- Embedding of `sources.ts` `ContentType`. -/
inductive ContentType where
  | technical
  | announcement
deriving Repr, DecidableEq

/-- Embedding of `state.ts` `SeenArticle`. -/
structure SeenArticle where
  url : String
  title : String
  source : String
  contentType : ContentType
  postedAt : String
deriving Repr, DecidableEq

/-- The metadata argument of `markArticleSeen`
(`Omit<SeenArticle, 'url' | 'postedAt'>`). -/
structure SeenMeta where
  title : String
  source : String
  contentType : ContentType
deriving Repr, DecidableEq

/-- Embedding of `state.ts` `State`.  `alertedSources` is optional in the interface;
`none` models the field being absent/`undefined`. -/
structure State where
  seen : RecordMap SeenArticle
  alertedSources : Option (RecordMap String)
deriving Repr, DecidableEq

def emptyState : State := ⟨[], none⟩

/-- Embedding of `state.ts` `isArticleSeen`. -/
def isArticleSeen (state : State) (url : String) : Bool :=
  recHas state.seen (articleId url)

/-- Embedding of `state.ts` `markArticleSeen`.  The source stamps
`postedAt: new Date().toISOString()`; the clock reading is the explicit
`now` argument here. -/
def markArticleSeen (state : State) (url : String) (metadata : SeenMeta)
    (now : String) : State :=
  { state with
    seen := recSet state.seen (articleId url)
      ⟨url, metadata.title, metadata.source, metadata.contentType, now⟩ }

/-- Embedding of `state.ts` `isSourceAlerted`:
`!!(state.alertedSources && state.alertedSources[sourceName])`.
JS truthiness: an absent mapping, an absent key, and an empty-string
timestamp are all falsy. -/
def isSourceAlerted (state : State) (sourceName : String) : Bool :=
  match state.alertedSources with
  | none => false
  | some m =>
    match recGet m sourceName with
    | none => false
    | some ts => ts != ""

/-- Embedding of `state.ts` `markSourceAlerted` (spread of `undefined` yields `{}`). -/
def markSourceAlerted (state : State) (sourceName : String) (now : String) : State :=
  { state with
    alertedSources := some (recSet (state.alertedSources.getD []) sourceName now) }

/-- Embedding of `state.ts` `clearSourceAlert`. -/
def clearSourceAlert (state : State) (sourceName : String) : State :=
  match state.alertedSources with
  | none => state
  | some m => { state with alertedSources := some (recDelete m sourceName) }

/-- Embedding of `state.ts` `loadState`.  The file system and `JSON.parse` are modelled
as inputs: `fileContent` is `none` when the state file does not exist, and
`jsonParse` is the platform JSON parser, `.error` modelling a thrown parse
exception.  The returned `Except` records whether `loadState` itself can
propagate an exception (it cannot: the parse failure is caught and mapped
to the empty state with a logged warning). -/
def loadState (fileContent : Option String)
    (jsonParse : String → Except String State) : Except String State :=
  match fileContent with
  | some content =>
    match jsonParse content with
    | .ok s => .ok s
    | .error _ => .ok { seen := [] , alertedSources := none }
  | none => .ok { seen := [] , alertedSources := none }

/-! ## JS string helpers -/

/-- ECMAScript `WhiteSpace ∪ LineTerminator` (what `String.prototype.trim`
strips): tab, LF, VT, FF, CR, space, NBSP, Unicode `Zs`, LS, PS, BOM. -/
def jsIsWhitespace (c : Char) : Bool :=
  let n := c.toNat
  n == 9 || n == 10 || n == 11 || n == 12 || n == 13 || n == 32 || n == 160 ||
  n == 5760 || (8192 ≤ n && n ≤ 8202) || n == 8232 || n == 8233 || n == 8239 ||
  n == 8287 || n == 12288 || n == 65279

/-- JS `String.prototype.trim`. -/
def jsTrim (s : String) : String :=
  String.mk (((s.data.dropWhile jsIsWhitespace).reverse.dropWhile jsIsWhitespace).reverse)

/-- One pass of JS `String.prototype.split` with a non-empty separator:
scan left to right, break at each non-overlapping occurrence.  Fuel-based
recursion (`l.length` fuel suffices: every step consumes a character). -/
def jsSplitAux (sep : List Char) : Nat → List Char → List Char → List (List Char)
  | _, [], acc => [acc.reverse]
  | 0, l, acc => [acc.reverse ++ l]
  | fuel + 1, c :: cs, acc =>
    if sep.isPrefixOf (c :: cs) then
      acc.reverse :: jsSplitAux sep fuel ((c :: cs).drop sep.length) []
    else
      jsSplitAux sep fuel cs (c :: acc)

/-- JS `s.split(sep)` for non-empty `sep`. -/
def jsSplit (s sep : String) : List String :=
  (jsSplitAux sep.data s.data.length s.data []).map String.mk

/-- JS `s || b` where `s` is a string (empty string is falsy). -/
def jsOrStr (s b : String) : String :=
  if s == "" then b else s

/-- JS `s.lastIndexOf(pat)`: the largest index at which `pat` occurs,
`-1` when it does not occur. -/
def jsLastIndexOf (s pat : String) : Int :=
  match ((List.range (s.data.length + 1)).filter
      (fun i => pat.data.isPrefixOf (s.data.drop i))).getLast? with
  | none => -1
  | some i => (i : Int)

/-! ## `src/summarizer.ts` — response parsing

The tail of `generateSummaries` parses the raw LLM response:
```
const parts = response.split('---').map(p => p.trim());
const mainSummary = parts[0] || response;
const secondaryAnalysis = parts[1] || '';
```
-/

/-- Embedding of `summarizer.ts` `SummaryOutputs`. -/
structure SummaryOutputs where
  mainSummary : String
  secondaryAnalysis : String
deriving Repr, DecidableEq

/-- The pure response-parsing tail of `summarizer.ts` `generateSummaries`
(the LLM call that produces `response` is the caller's oracle). -/
def parseSummaries (response : String) : SummaryOutputs :=
  let parts := (jsSplit response ("---")).map jsTrim
  { mainSummary := jsOrStr (parts.getD 0 ("")) response
    secondaryAnalysis := jsOrStr (parts.getD 1 ("")) ("") }

/-! ## `src/slack.ts` — `truncateForSlack` -/

/-- Embedding of `slack.ts` `truncateForSlack` with its default `maxLen = 2900` (every
call site uses the default).  The source condition is
`lastBreak > maxLen * 0.7`; in IEEE-754 doubles `2900 * 0.7` evaluates to
`2029.9999999999998`, so for integer `lastBreak` the condition is exactly
`lastBreak ≥ 2030`. -/
def truncateForSlack (text : String) : String :=
  if text.length ≤ 2900 then text
  else if jsLastIndexOf (jsSlice0 text 2900) ("\n\n") ≥ 2030 then
    jsSlice0 (jsSlice0 text 2900) (jsLastIndexOf (jsSlice0 text 2900) ("\n\n")).toNat
      ++ ("\n\n_(truncated)_")
  else
    jsSlice0 text 2900 ++ ("...")

/-! ## `src/index.ts` — orchestration

External calls are reified as an ordered trace of `Eff` values; fallible
collaborators (scraper, LLM, Slack, image pipeline) are oracles returning
`Except`, where `.error` models a thrown exception crossing that call. -/

/-- Embedding of `sources.ts` `Source`. -/
structure Source where
  name : String
  indexUrl : String
  articleSelector : String
  baseUrl : String
  contentType : ContentType
  rssUrl : Option String
deriving Repr, DecidableEq

/-- The scraper's article payload (`fetchArticleContent` result). -/
structure Article where
  title : String
  content : String
deriving Repr, DecidableEq

/-- One observable external call made by the orchestrator. -/
inductive Eff where
  | fetchContent (url : String)
  | summarize (content title : String) (ct : ContentType)
  | research (content title : String) (ct : ContentType)
  | publish (title url sourceName : String) (ct : ContentType)
  | imageGen (threadTs : String)
  | sendMsg (text : String)
  | callback
  | save (state : State)
deriving Repr, DecidableEq

def Eff.isSave : Eff → Bool
  | .save _ => true
  | _ => false

def Eff.isSend : Eff → Bool
  | .sendMsg _ => true
  | _ => false

/-- The collaborator oracles consumed by one run, plus the config flag and
clock reading the pipeline uses. -/
structure Collaborators where
  fetchArticleContent : String → Except String Article
  generateSummaries : String → String → ContentType → Except String SummaryOutputs
  runAgenticResearch : String → String → ContentType → Except String String
  postArticleThread : String → String → String → ContentType → SummaryOutputs → String →
    Except String (Option String)
  imageGen : String → Except String Unit
  parseDomain : String → Except String String
  imageGenEnabled : Bool
  now : String

/-- The alert text sent when a source yields zero candidate URLs. -/
def scraperAlertText (source : Source) : String :=
  "⚠️ *Scraper Alert*: " ++ source.name ++ " returned 0 articles. Selector may be broken.\n"
    ++ source.indexUrl

/-- The notification sent when a whole source throws in `runScrapeCheck`. -/
def scraperErrorText (source : Source) (e : String) : String :=
  "🚨 *Scraper Error*: " ++ source.name ++ " failed completely.\n```" ++ e ++ "```"

/-- The body of `processSource`'s per-article `try` block: fetch content,
summarize, research, publish; on a returned thread handle optionally run
the image pipeline and then mark the article seen.  A thrown exception
(`.error` from any collaborator) is caught at the per-article boundary:
the loop state is returned unchanged.  Mark-as-seen happens only after a
successful Slack post (and, when images are enabled, after the image step,
which precedes it in the `if (threadTs)` block). -/
def processArticle (collab : Collaborators) (sourceName : String) (ct : ContentType)
    (st : State) (url : String) : State × List Eff :=
  match collab.fetchArticleContent url with
  | .error _ => (st, [.fetchContent url])
  | .ok article =>
    match collab.generateSummaries article.content article.title ct with
    | .error _ => (st, [.fetchContent url, .summarize article.content article.title ct])
    | .ok summaries =>
      match collab.runAgenticResearch article.content article.title ct with
      | .error _ => (st, [.fetchContent url, .summarize article.content article.title ct,
          .research article.content article.title ct])
      | .ok researchContext =>
        let e3 : List Eff := [.fetchContent url, .summarize article.content article.title ct,
          .research article.content article.title ct, .publish article.title url sourceName ct]
        match collab.postArticleThread article.title url sourceName ct summaries researchContext with
        | .error _ => (st, e3)
        | .ok none => (st, e3)
        | .ok (some threadTs) =>
          if collab.imageGenEnabled then
            match collab.imageGen threadTs with
            | .error _ => (st, e3 ++ [.imageGen threadTs])
            | .ok _ =>
              (markArticleSeen st url ⟨article.title, sourceName, ct⟩ collab.now,
               e3 ++ [.imageGen threadTs])
          else
            (markArticleSeen st url ⟨article.title, sourceName, ct⟩ collab.now, e3)

/-- The `for (const url of newUrls)` loop of `processSource`. -/
def articleLoop (collab : Collaborators) (sourceName : String) (ct : ContentType) :
    List String → State → State × List Eff
  | [], st => (st, [])
  | url :: rest, st =>
    let r1 := processArticle collab sourceName ct st url
    let r2 := articleLoop collab sourceName ct rest r1.1
    (r2.1, r1.2 ++ r2.2)

/-- Embedding of `index.ts` `processSource`.  `articleUrls` is the result of the
`fetchArticleUrls(source)` call (a throw there propagates to the caller
and is modelled at the `runScrapeCheck` boundary). -/
def processSource (collab : Collaborators) (source : Source)
    (articleUrls : List String) (state : State) : State × List Eff :=
  if articleUrls.length == 0 then
    if !(isSourceAlerted state source.name) then
      (markSourceAlerted state source.name collab.now, [.sendMsg (scraperAlertText source)])
    else
      (state, [])
  else
    let state1 :=
      if isSourceAlerted state source.name then clearSourceAlert state source.name else state
    let newUrls := articleUrls.filter (fun url => !(isArticleSeen state1 url))
    if newUrls.length == 0 then (state1, [])
    else articleLoop collab source.name source.contentType newUrls state1

/-- One iteration of `seedSource`'s `for (const url of articleUrls)` loop:
`if (!isArticleSeen(...)) currentState = markArticleSeen(...)`. -/
def seedStep (source : Source) (now : String) (st : State) (url : String) : State :=
  if !(isArticleSeen st url) then
    markArticleSeen st url ⟨"(seeded)", source.name, source.contentType⟩ now
  else st

/-- The `for (const url of articleUrls)` loop of `seedSource`. -/
def seedLoop (source : Source) (now : String) : List String → State → State
  | [], st => st
  | url :: rest, st => seedLoop source now rest (seedStep source now st url)

/-- Embedding of `index.ts` `seedSource`: mark every fetched candidate URL seen with the
placeholder title, no collaborator calls at all (empty trace). -/
def seedSource (source : Source) (articleUrls : List String) (state : State)
    (now : String) : State × List Eff :=
  if articleUrls.length == 0 then (state, [])
  else (seedLoop source now articleUrls state, [])

/-- The `for (const source of SOURCES)` loop of `runScrapeCheck`.
`perSource` is the per-source body (`seedSource` / `processSource`
together with the `fetchArticleUrls` call feeding it); `.error` models an
exception reaching the per-source `catch`, which increments `failed`,
sends a scraper-error notification unless in seed mode, and continues with
the state accumulated so far.  Returns `((processed, failed), state,
trace)`; the counters are accumulated per iteration in the source and here
by (commutative) addition over the recursion. -/
def runSources (seedMode : Bool)
    (perSource : Source → State → Except String (State × List Eff)) :
    List Source → State → (Int × Nat) × State × List Eff
  | [], state => ((0, 0), state, [])
  | src :: rest, state =>
    match perSource src state with
    | .ok r =>
      let rr := runSources seedMode perSource rest r.1
      ((rr.1.1 + ((r.1.seen.length : Int) - (state.seen.length : Int)), rr.1.2),
       rr.2.1, r.2 ++ rr.2.2)
    | .error e =>
      let rr := runSources seedMode perSource rest state
      ((rr.1.1, rr.1.2 + 1), rr.2.1,
       (if seedMode then [] else [.sendMsg (scraperErrorText src e)]) ++ rr.2.2)

/-- Embedding of `index.ts` `runScrapeCheck` from the point where the state is loaded:
run the per-source loop, then `saveState` exactly once. -/
def runScrapeCheck (seedMode : Bool)
    (perSource : Source → State → Except String (State × List Eff))
    (sources : List Source) (state0 : State) : (Int × Nat) × State × List Eff :=
  let r := runSources seedMode perSource sources state0
  (r.1, r.2.1, r.2.2 ++ [.save r.2.1])

/-! ## `index.ts` — `processManualUrl` -/

/-- The slice of `config.ts` configuration `processManualUrl` consults. -/
structure Config where
  slackChannelId : String
  imageGenEnabled : Bool
deriving Repr, DecidableEq

/-- Result value of `processManualUrl`. -/
structure ManualResult where
  success : Bool
  message : String
deriving Repr, DecidableEq

/-- JS `v || b` for an optional string `v` (`undefined` and `''` falsy). -/
def jsOrOpt (v : Option String) (b : String) : String :=
  match v with
  | none => b
  | some s => jsOrStr s b

/-- Embedding of `index.ts` `processManualUrl`.  `configResult` models `loadConfig()`
(`.error` = the caught configuration exception), `loadedState` the
`loadState()` result, `collab.parseDomain` the `new URL(url).hostname`
munging (it may throw inside the `try`), `.callback` the
`onArticlePosted?.()` invocation, and `.imageGen` the
infographic-plus-cartoon step run when `config.imageGenEnabled`.  Any
`.error` inside the `try` is caught and mapped to the
`Failed to fetch article` message. -/
def processManualUrl (collab : Collaborators) (configResult : Except String Config)
    (loadedState : State) (url : String) (contentType : ContentType)
    (channelId : Option String) : ManualResult × List Eff :=
  match configResult with
  | .error e => ({ success := false, message := "Configuration error: " ++ e }, [])
  | .ok config =>
    let targetChannel := jsOrOpt channelId config.slackChannelId
    let isPrimaryChannel := targetChannel == config.slackChannelId
    if isPrimaryChannel && isArticleSeen loadedState url then
      ({ success := false, message := "Article already processed" }, [])
    else
      match collab.fetchArticleContent url with
      | .error detail =>
        ({ success := false, message := "Failed to fetch article: " ++ detail ++ "\n" ++ url },
         [.fetchContent url])
      | .ok article =>
        match collab.generateSummaries article.content article.title contentType with
        | .error detail =>
          ({ success := false, message := "Failed to fetch article: " ++ detail ++ "\n" ++ url },
           [.fetchContent url, .summarize article.content article.title contentType])
        | .ok summaries =>
          match collab.runAgenticResearch article.content article.title contentType with
          | .error detail =>
            ({ success := false, message := "Failed to fetch article: " ++ detail ++ "\n" ++ url },
             [.fetchContent url, .summarize article.content article.title contentType,
              .research article.content article.title contentType])
          | .ok researchContext =>
            let e2 : List Eff := [.fetchContent url,
              .summarize article.content article.title contentType,
              .research article.content article.title contentType]
            match collab.parseDomain url with
            | .error detail =>
              ({ success := false,
                 message := "Failed to fetch article: " ++ detail ++ "\n" ++ url }, e2)
            | .ok domain =>
              let e3 := e2 ++ [Eff.publish article.title url domain contentType]
              match collab.postArticleThread article.title url domain contentType summaries
                  researchContext with
              | .error detail =>
                ({ success := false,
                   message := "Failed to fetch article: " ++ detail ++ "\n" ++ url }, e3)
              | .ok none =>
                ({ success := false, message := "Failed to post to Slack" }, e3)
              | .ok (some threadTs) =>
                let e4 := e3 ++ [Eff.callback]
                let afterImages : Except String (List Eff) :=
                  if config.imageGenEnabled then
                    match collab.imageGen threadTs with
                    | .error detail => .error detail
                    | .ok _ => .ok (e4 ++ [Eff.imageGen threadTs])
                  else .ok e4
                match afterImages with
                | .error detail =>
                  ({ success := false,
                     message := "Failed to fetch article: " ++ detail ++ "\n" ++ url },
                   e4 ++ [Eff.imageGen threadTs])
                | .ok e5 =>
                  if isPrimaryChannel then
                    let state' := markArticleSeen loadedState url
                      ⟨article.title, "Manual", contentType⟩ collab.now
                    ({ success := true, message := "Posted: " ++ article.title },
                     e5 ++ [Eff.save state'])
                  else
                    ({ success := true, message := "Posted: " ++ article.title }, e5)

/-! ## Record-map lemmas -/

theorem recGet_isSome {V : Type} (m : RecordMap V) (k : String) :
    (recGet m k).isSome = recHas m k := by
  induction m with
  | nil => rfl
  | cons p t ih =>
    by_cases h : (p.1 == k) = true
    · simp [recGet, recHas, List.find?_cons, List.any_cons, h]
    · simp only [Bool.not_eq_true] at h
      simp only [recGet, recHas, List.find?_cons, List.any_cons, h, Bool.false_or]
      exact ih

theorem recGet_eq_none_of_not_has {V : Type} (m : RecordMap V) (k : String)
    (h : recHas m k = false) : recGet m k = none := by
  have := recGet_isSome m k
  rw [h] at this
  exact Option.not_isSome_iff_eq_none.mp (by simp [this])

theorem recGet_isSome_of_has {V : Type} (m : RecordMap V) (k : String)
    (h : recHas m k = true) : ∃ v, recGet m k = some v := by
  have := recGet_isSome m k
  rw [h] at this
  exact Option.isSome_iff_exists.mp this

theorem recHas_iff_mem_keys {V : Type} (m : RecordMap V) (k : String) :
    recHas m k = true ↔ k ∈ recKeys m := by
  simp only [recHas, recKeys, List.any_eq_true, List.mem_map, beq_iff_eq]

theorem recGet_recSet_self {V : Type} (m : RecordMap V) (k : String) (v : V) :
    recGet (recSet m k v) k = some v := by
  induction m with
  | nil => simp [recSet, recGet, List.find?_cons_of_pos]
  | cons p t ih =>
    by_cases hp : (p.1 == k) = true
    · simp [recSet, hp, recGet, List.find?_cons_of_pos]
    · simp only [Bool.not_eq_true] at hp
      simp only [recSet, hp, Bool.false_eq_true, if_false]
      simpa [recGet, List.find?_cons_of_neg, hp] using ih

theorem recGet_recSet_ne {V : Type} (m : RecordMap V) (k k' : String) (v : V)
    (h : k' ≠ k) : recGet (recSet m k v) k' = recGet m k' := by
  have hk : (k == k') = false := beq_eq_false_iff_ne.mpr (fun he => h he.symm)
  induction m with
  | nil => simp [recSet, recGet, List.find?_cons_of_neg, hk]
  | cons p t ih =>
    by_cases hp : (p.1 == k) = true
    · have hpk : p.1 = k := beq_iff_eq.mp hp
      have hp' : (p.1 == k') = false := by
        rw [hpk]; exact hk
      simp [recSet, hp, recGet, List.find?_cons_of_neg, hk, hp']
    · simp only [Bool.not_eq_true] at hp
      simp only [recSet, hp, Bool.false_eq_true, if_false]
      cases hpc : (p.1 == k') with
      | true => simp [recGet, List.find?_cons_of_pos, hpc]
      | false => simpa [recGet, List.find?_cons_of_neg, hpc] using ih

theorem recHas_recSet_self {V : Type} (m : RecordMap V) (k : String) (v : V) :
    recHas (recSet m k v) k = true := by
  have := recGet_isSome (recSet m k v) k
  rw [recGet_recSet_self] at this
  simpa using this.symm

theorem recHas_recSet_mono {V : Type} (m : RecordMap V) (k k' : String) (v : V)
    (h : recHas m k' = true) : recHas (recSet m k v) k' = true := by
  by_cases he : k' = k
  · subst he
    exact recHas_recSet_self m k' v
  · have := recGet_isSome (recSet m k v) k'
    rw [recGet_recSet_ne m k k' v he] at this
    rw [← this, recGet_isSome, h]

/-! ## C1: article identity -/

/-- Modelled from the spec: "the first 16 hexadecimal characters of the
SHA-256 digest of `u`". -/
def specArticleIdentity (u : String) : String :=
  String.mk ((sha256Hex (utf8Encode u)).data.take 16)

theorem getD_mem_hexDigits (n : Nat) : hexDigits.getD n ('0') ∈ hexDigits := by
  rw [List.getD_eq_getElem?_getD]
  cases h : hexDigits[n]? with
  | none => simp [hexDigits]
  | some c =>
    have := List.getElem?_mem h
    simpa [h] using this

theorem wordToHex_length (w : Nat) : (wordToHex w).data.length = 8 := by
  simp [wordToHex]

theorem wordToHex_strLength (w : Nat) : (wordToHex w).length = 8 := by
  simp [wordToHex, String.length]

theorem mem_wordToHex_hex (w : Nat) (c : Char) (h : c ∈ (wordToHex w).data) :
    c ∈ hexDigits := by
  simp only [wordToHex, List.mem_map] at h
  obtain ⟨i, _, rfl⟩ := h
  exact getD_mem_hexDigits _

theorem sha256Hex_data (msg : List Nat) :
    (sha256Hex msg).data =
      (wordToHex (sha256Digest msg).a).data ++ (wordToHex (sha256Digest msg).b).data ++
      (wordToHex (sha256Digest msg).c).data ++ (wordToHex (sha256Digest msg).d).data ++
      (wordToHex (sha256Digest msg).e).data ++ (wordToHex (sha256Digest msg).f).data ++
      (wordToHex (sha256Digest msg).g).data ++ (wordToHex (sha256Digest msg).h).data := by
  simp [sha256Hex, String.data_append]

theorem sha256Hex_length (msg : List Nat) : (sha256Hex msg).data.length = 64 := by
  rw [sha256Hex_data]
  simp [List.length_append, wordToHex_length, wordToHex_strLength]

theorem mem_sha256Hex_hex (msg : List Nat) (c : Char) (h : c ∈ (sha256Hex msg).data) :
    c ∈ hexDigits := by
  rw [sha256Hex_data] at h
  simp only [List.mem_append] at h
  rcases h with ((((((h | h) | h) | h) | h) | h) | h) | h <;>
    exact mem_wordToHex_hex _ _ h

/-- C1: `articleId(u)` is the first 16 hex characters of the SHA-256 digest
of `u` (16 characters, all hex digits), it is a pure function of its input,
and `isArticleSeen(state, u)` is true iff `articleId(u)` is a key of
`state.seen`. -/
theorem articleId_idempotent_identity (u v : String) :
    (u = v → articleId u = articleId v) ∧
    articleId u = specArticleIdentity u ∧
    (articleId u).length = 16 ∧
    (∀ c ∈ (articleId u).data, c ∈ hexDigits) ∧
    (∀ s : State, isArticleSeen s u = true ↔ articleId u ∈ recKeys s.seen) := by
  refine ⟨fun h => by rw [h], rfl, ?_, ?_, ?_⟩
  · show ((sha256Hex (utf8Encode u)).data.take 16).length = 16
    rw [List.length_take, sha256Hex_length]
    decide
  · intro c hc
    exact mem_sha256Hex_hex _ c (List.take_subset 16 _ hc)
  · intro s
    exact recHas_iff_mem_keys s.seen (articleId u)

/-- Witness for C1 at concrete inputs. -/
theorem articleId_idempotent_identity_witness :
    articleId ("https://example.com/") = articleId ("https://example.com/") ∧
    (isArticleSeen emptyState ("https://example.com/") = true ↔
      articleId ("https://example.com/") ∈ recKeys emptyState.seen) :=
  ⟨(articleId_idempotent_identity ("https://example.com/") ("https://example.com/")).1 rfl,
   (articleId_idempotent_identity ("https://example.com/") ("https://example.com/")).2.2.2.2
     emptyState⟩

/-! ## C8: loadState never raises -/

/-- C8: `loadState` always returns normally; a missing file and a file
whose parse throws both yield the empty state, and a successful parse is
returned as is. -/
theorem loadState_never_raises (fileContent : Option String)
    (jsonParse : String → Except String State) :
    (∃ s, loadState fileContent jsonParse = .ok s) ∧
    (fileContent = none → loadState fileContent jsonParse = .ok emptyState) ∧
    (∀ c e, fileContent = some c → jsonParse c = .error e →
      loadState fileContent jsonParse = .ok emptyState) ∧
    (∀ c s, fileContent = some c → jsonParse c = .ok s →
      loadState fileContent jsonParse = .ok s) := by
  refine ⟨?_, ?_, ?_, ?_⟩
  · cases fileContent with
    | none => exact ⟨emptyState, rfl⟩
    | some c =>
      cases h : jsonParse c with
      | ok s => exact ⟨s, by simp [loadState, h]⟩
      | error e => exact ⟨emptyState, by simp [loadState, h]; rfl⟩
  · rintro rfl
    rfl
  · rintro c e rfl hp
    simp [loadState, hp]
    rfl
  · rintro c s rfl hp
    simp [loadState, hp]

/-- Witness for C8: a missing file and a corrupt file both load as the
empty state. -/
theorem loadState_never_raises_witness :
    loadState none (fun _ => Except.error ("boom")) = .ok emptyState ∧
    loadState (some ("not json")) (fun _ => Except.error ("boom")) = .ok emptyState :=
  ⟨(loadState_never_raises none _).2.1 rfl,
   (loadState_never_raises (some ("not json")) _).2.2.1 ("not json") ("boom") rfl rfl⟩

/-! ## C10: alert operations on an absent mapping; idempotence -/

/-- C10: with `alertedSources` absent, `isSourceAlerted` is false for every
name and `clearSourceAlert` returns the state unchanged; `clearSourceAlert`
is idempotent. -/
theorem alert_ops_defaults_idempotent (s : State) (name : String) :
    (s.alertedSources = none →
      (∀ n, isSourceAlerted s n = false) ∧ clearSourceAlert s name = s) ∧
    clearSourceAlert (clearSourceAlert s name) name = clearSourceAlert s name := by
  constructor
  · intro h
    constructor
    · intro n
      simp [isSourceAlerted, h]
    · simp [clearSourceAlert, h]
  · cases hs : s.alertedSources with
    | none => simp [clearSourceAlert, hs]
    | some m =>
      simp only [clearSourceAlert, hs, recDelete]
      rw [List.filter_filter]
      have hcongr : List.filter (fun a => (a.1 != name) && (a.1 != name)) m =
          List.filter (fun p => p.1 != name) m :=
        List.filter_congr (fun a _ => Bool.and_self _)
      rw [hcongr]

/-- Witness for C10 at a concrete state with `alertedSources` absent. -/
theorem alert_ops_defaults_idempotent_witness :
    (∀ n, isSourceAlerted emptyState n = false) ∧
    clearSourceAlert emptyState ("X") = emptyState ∧
    clearSourceAlert (clearSourceAlert emptyState ("X")) ("X") =
      clearSourceAlert emptyState ("X") :=
  ⟨((alert_ops_defaults_idempotent emptyState ("X")).1 rfl).1,
   ((alert_ops_defaults_idempotent emptyState ("X")).1 rfl).2,
   (alert_ops_defaults_idempotent emptyState ("X")).2⟩

/-! ## C7: summarizer response parsing -/

theorem jsOrStr_right_empty (s : String) : jsOrStr s ("") = s := by
  by_cases h : (s == "") = true
  · simp [jsOrStr, h, beq_iff_eq.mp h]
  · simp only [Bool.not_eq_true] at h
    simp [jsOrStr, h]

/-- C7 counterexample: for the separator-free response `"x "`, the parsed
`mainSummary` is the trimmed `"x"`, not the entire response `"x "` as the
claim states. -/
theorem parseSummaries_cex :
    jsSplit ("x ") ("---") = [("x ")] ∧
    (parseSummaries ("x ")).mainSummary = ("x") ∧
    ("x" : String) ≠ ("x ") :=
  ⟨by decide, by decide, by decide⟩

/-- C7 amended: the adapter splits on `---` and trims each part;
`mainSummary` is the trimmed first part unless that trim is empty, in which
case the raw response is used as a fallback (`parts[0] || response`);
`secondaryAnalysis` is the trimmed second part, empty when absent.  In
particular the spec scenario holds, and a separator-free response yields
its own trim (or itself, when the trim is empty) and an empty second part,
without any error. -/
theorem parseSummaries_amended (r : String) :
    parseSummaries ("l1\nl2\nl3\n\nhook\n---\nbody") =
      { mainSummary := "l1\nl2\nl3\n\nhook", secondaryAnalysis := "body" } ∧
    (jsSplit r ("---") = [r] →
      parseSummaries r =
        { mainSummary := if jsTrim r = "" then r else jsTrim r
          secondaryAnalysis := "" }) ∧
    (∀ p0 p1 rest, (jsSplit r ("---")).map jsTrim = p0 :: p1 :: rest → p0 ≠ "" →
      parseSummaries r = { mainSummary := p0, secondaryAnalysis := p1 }) := by
  refine ⟨by decide, ?_, ?_⟩
  · intro h
    simp only [parseSummaries, h, List.map_cons, List.map_nil, List.getD_cons_zero,
      List.getD, List.getElem?_cons_zero]
    rw [jsOrStr_right_empty]
    by_cases ht : jsTrim r = ""
    · simp [jsOrStr, ht]
    · simp [jsOrStr, ht, beq_eq_false_iff_ne.mpr ht]
  · intro p0 p1 rest h h0
    simp only [parseSummaries, h, List.getD_cons_zero]
    have h1 : (p0 :: p1 :: rest).getD 1 ("") = p1 := rfl
    rw [h1, jsOrStr_right_empty]
    simp [jsOrStr, beq_eq_false_iff_ne.mpr h0]

/-- Witness for the amended C7 at concrete responses. -/
theorem parseSummaries_amended_witness :
    parseSummaries ("a---b") = { mainSummary := "a", secondaryAnalysis := "b" } ∧
    parseSummaries ("x ") =
      { mainSummary := if jsTrim ("x ") = "" then ("x ") else jsTrim ("x ")
        secondaryAnalysis := "" } :=
  ⟨(parseSummaries_amended ("a---b")).2.2 ("a") ("b") [] (by decide) (by decide),
   (parseSummaries_amended ("x ")).2.1 (by decide)⟩

/-! ## C2: seen-store monotonicity -/

/-- A demonstration record already present in the store. -/
def demoOldRecord : SeenArticle := ⟨"u", "old", "Src", ContentType.technical, "t0"⟩

/-- A state in which the URL `"u"` is already seen. -/
def demoSeenState : State := ⟨[(articleId ("u"), demoOldRecord)], none⟩

/-- Fresh metadata with a different title. -/
def demoNewMeta : SeenMeta := ⟨"new", "Src", ContentType.technical⟩

/-- C2 counterexample: `markArticleSeen` on an already-seen URL *replaces*
the existing record (new title, new timestamp), so "a record, once created,
is never mutated or replaced" fails at the operation level. -/
theorem markArticleSeen_rebind_cex :
    recGet demoSeenState.seen (articleId ("u")) = some demoOldRecord ∧
    recGet (markArticleSeen demoSeenState ("u") demoNewMeta ("t1")).seen (articleId ("u")) =
      some ⟨"u", "new", "Src", ContentType.technical, "t1"⟩ ∧
    (⟨"u", "new", "Src", ContentType.technical, "t1"⟩ : SeenArticle) ≠ demoOldRecord := by
  refine ⟨?_, ?_, ?_⟩
  · simp [demoSeenState, recGet, List.find?_cons_of_pos]
  · simpa [markArticleSeen, demoNewMeta] using
      recGet_recSet_self demoSeenState.seen (articleId ("u"))
        ⟨("u"), ("new"), ("Src"), ContentType.technical, ("t1")⟩
  · simp [demoOldRecord]

/-- C2 amended: all three operations are pure state-to-state functions;
`markSourceAlerted` and `clearSourceAlert` leave the seen mapping exactly
unchanged; `markArticleSeen` preserves every existing key, preserves the
binding of every key other than `articleId(url)`, and (re)binds
`articleId(url)` to the freshly built record — so no seen record is ever
removed, but re-marking an already-seen URL replaces that one record. -/
theorem seenStore_monotone_amended (s : State) (url : String) (md : SeenMeta)
    (now : String) (name : String) :
    ((markSourceAlerted s name now).seen = s.seen) ∧
    ((clearSourceAlert s name).seen = s.seen) ∧
    (∀ k, recHas s.seen k = true → recHas (markArticleSeen s url md now).seen k = true) ∧
    (∀ k v, k ≠ articleId url → recGet s.seen k = some v →
      recGet (markArticleSeen s url md now).seen k = some v) ∧
    recGet (markArticleSeen s url md now).seen (articleId url) =
      some ⟨url, md.title, md.source, md.contentType, now⟩ ∧
    recHas (markArticleSeen s url md now).seen (articleId url) = true := by
  refine ⟨rfl, ?_, ?_, ?_, ?_, ?_⟩
  · cases h : s.alertedSources <;> simp [clearSourceAlert, h]
  · intro k hk
    exact recHas_recSet_mono _ _ _ _ hk
  · intro k v hne hget
    show recGet (recSet s.seen (articleId url) _) k = some v
    rw [recGet_recSet_ne _ _ _ _ hne]
    exact hget
  · exact recGet_recSet_self _ _ _
  · exact recHas_recSet_self _ _ _

/-- Witness for the amended C2 at a concrete state: after marking `"w"`,
the key for `"u"` is still present with its old record. -/
theorem seenStore_monotone_amended_witness :
    recHas (markArticleSeen demoSeenState ("w") demoNewMeta ("t2")).seen
      (articleId ("u")) = true ∧
    recGet (markArticleSeen demoSeenState ("w") demoNewMeta ("t2")).seen
      (articleId ("u")) = some demoOldRecord := by
  have hhas : recHas demoSeenState.seen (articleId ("u")) = true := by
    simp [demoSeenState, recHas]
  have hget : recGet demoSeenState.seen (articleId ("u")) = some demoOldRecord := by
    simp [demoSeenState, recGet, List.find?_cons_of_pos]
  have hne : articleId ("u") ≠ articleId ("w") := by decide
  exact ⟨(seenStore_monotone_amended demoSeenState ("w") demoNewMeta ("t2") ("X")).2.2.1
      (articleId ("u")) hhas,
    (seenStore_monotone_amended demoSeenState ("w") demoNewMeta ("t2") ("X")).2.2.2.1
      (articleId ("u")) demoOldRecord hne hget⟩

/-! ## C9: truncateForSlack -/

theorem mem_of_getLast?_eq {α : Type} (l : List α) (a : α) (h : l.getLast? = some a) :
    a ∈ l := by
  have hm : a ∈ l.getLast? := by rw [Option.mem_def, h]
  obtain ⟨hne, he⟩ := List.mem_getLast?_eq_getLast hm
  rw [he]
  exact List.getLast_mem hne

/-- If a pattern's first character never occurs in `s`, JS `lastIndexOf`
returns `-1`. -/
theorem jsLastIndexOf_eq_neg_one (s pat : String) (c : Char) (cs : List Char)
    (hp : pat.data = c :: cs) (hc : c ∉ s.data) : jsLastIndexOf s pat = -1 := by
  have hfil : (List.range (s.data.length + 1)).filter
      (fun i => pat.data.isPrefixOf (s.data.drop i)) = [] := by
    apply List.filter_eq_nil_iff.mpr
    intro i _
    rw [hp]
    intro habs
    have hpre : (c :: cs) <+: s.data.drop i := List.isPrefixOf_iff_prefix.mp habs
    obtain ⟨t, ht⟩ := hpre
    have hcmem : c ∈ s.data.drop i := by
      rw [← ht]; simp
    exact hc (List.drop_subset i s.data hcmem)
  unfold jsLastIndexOf
  rw [hfil]
  rfl

/-- Every hit `jsLastIndexOf` reports is a real occurrence within bounds. -/
theorem jsLastIndexOf_cases (s pat : String) :
    jsLastIndexOf s pat = -1 ∨
    ∃ i : Nat, jsLastIndexOf s pat = (i : Int) ∧ i ≤ s.data.length ∧
      pat.data.isPrefixOf (s.data.drop i) = true := by
  unfold jsLastIndexOf
  cases hl : ((List.range (s.data.length + 1)).filter
      (fun i => pat.data.isPrefixOf (s.data.drop i))).getLast? with
  | none => left; rfl
  | some i =>
    right
    have hmem := mem_of_getLast?_eq _ _ hl
    have hmf := List.mem_filter.mp hmem
    have hrange : i < s.data.length + 1 := List.mem_range.mp hmf.1
    exact ⟨i, rfl, by omega, hmf.2⟩

theorem jsSlice0_length (s : String) (n : Nat) : (jsSlice0 s n).length = min n s.length := by
  show (s.data.take n).length = min n s.data.length
  exact List.length_take n s.data

/-- A 2901-character text with no paragraph break. -/
def bigA : String := String.mk (List.replicate 2901 ('a'))

theorem bigA_length : bigA.length = 2901 := by
  show (List.replicate 2901 ('a')).length = 2901
  rw [List.length_replicate]

theorem bigA_truncated : jsSlice0 bigA 2900 = String.mk (List.replicate 2900 ('a')) := by
  simp only [jsSlice0, bigA]
  rw [List.take_replicate]
  congr 1

theorem bigA_no_newline : ('\n') ∉ (jsSlice0 bigA 2900).data := by
  rw [bigA_truncated]
  intro h
  have := List.eq_of_mem_replicate h
  simp at this

/-- C9 counterexample: `bigA` is longer than the limit, so truncation
occurs mid-document, yet no `(truncated)` marker is appended — the code
appends `...` instead because no paragraph break exists. -/
theorem truncateForSlack_cex :
    bigA.length = 2901 ∧
    truncateForSlack bigA = String.mk (List.replicate 2900 ('a')) ++ ("...") ∧
    jsLastIndexOf (truncateForSlack bigA) ("(truncated)") = -1 := by
  have hli : jsLastIndexOf (jsSlice0 bigA 2900) ("\n\n") = -1 :=
    jsLastIndexOf_eq_neg_one _ _ ('\n') ['\n'] rfl bigA_no_newline
  have hres : truncateForSlack bigA = String.mk (List.replicate 2900 ('a')) ++ ("...") := by
    unfold truncateForSlack
    rw [if_neg (by rw [bigA_length]; omega), hli, if_neg (by decide), bigA_truncated]
  refine ⟨bigA_length, hres, ?_⟩
  apply jsLastIndexOf_eq_neg_one _ _ ('(') ("truncated)").data rfl
  rw [hres]
  intro hmem
  rw [String.data_append] at hmem
  rcases List.mem_append.mp hmem with h | h
  · have := List.eq_of_mem_replicate h
    simp at this
  · simp at h

/-- C9 amended: text within the 2900-character limit is returned unchanged;
longer text always yields a result within the 3000-character block limit;
when the last paragraph break of the truncated prefix lies strictly past
70% of the limit the text is cut at that break and the `(truncated)` marker
is appended; when no break lies at or past 70% (`lastIndexOf < 2030`,
including absence, `-1`) the text is cut at exactly the limit and `...` is
appended instead — no `(truncated)` marker in that case. -/
theorem truncateForSlack_amended (text : String) (b : Nat) :
    (text.length ≤ 2900 → truncateForSlack text = text) ∧
    (2900 < text.length → (truncateForSlack text).length ≤ 3000) ∧
    (2900 < text.length → jsLastIndexOf (jsSlice0 text 2900) ("\n\n") = (b : Int) →
      2030 < b →
      truncateForSlack text =
        jsSlice0 (jsSlice0 text 2900) b ++ ("\n\n_(truncated)_")) ∧
    (2900 < text.length → jsLastIndexOf (jsSlice0 text 2900) ("\n\n") < 2030 →
      truncateForSlack text = jsSlice0 text 2900 ++ ("...")) := by
  refine ⟨?_, ?_, ?_, ?_⟩
  · intro h
    unfold truncateForSlack
    rw [if_pos h]
  · intro h
    unfold truncateForSlack
    rw [if_neg (by omega)]
    by_cases hb : jsLastIndexOf (jsSlice0 text 2900) ("\n\n") ≥ 2030
    · rw [if_pos hb]
      rw [String.length_append, jsSlice0_length]
      have hbound : (jsLastIndexOf (jsSlice0 text 2900) ("\n\n")).toNat ≤ 2900 := by
        rcases jsLastIndexOf_cases (jsSlice0 text 2900) ("\n\n") with hc | ⟨i, hi, hle, _⟩
        · omega
        · have hdl : (jsSlice0 text 2900).data.length ≤ 2900 := by
            rw [show (jsSlice0 text 2900).data = text.data.take 2900 from rfl,
              List.length_take]
            omega
          rw [hi]
          omega
      have hm : ("\n\n_(truncated)_").length = 15 := rfl
      rw [hm]
      omega
    · rw [if_neg hb]
      rw [String.length_append, jsSlice0_length]
      have hm : ("...").length = 3 := rfl
      rw [hm]
      omega
  · intro h hli hb
    unfold truncateForSlack
    rw [if_neg (by omega), hli, if_pos (by omega)]
    congr 1
  · intro h hli
    unfold truncateForSlack
    rw [if_neg (by omega), if_neg (by omega)]

/-- Witness for the amended C9: a short text passes through unchanged, and
`bigA` (no paragraph break) is cut at the limit with `...` appended. -/
theorem truncateForSlack_amended_witness :
    truncateForSlack ("short text") = ("short text") ∧
    truncateForSlack bigA = jsSlice0 bigA 2900 ++ ("...") := by
  have hli : jsLastIndexOf (jsSlice0 bigA 2900) ("\n\n") = -1 :=
    jsLastIndexOf_eq_neg_one _ _ ('\n') ['\n'] rfl bigA_no_newline
  exact ⟨(truncateForSlack_amended ("short text") 0).1 (by decide),
    (truncateForSlack_amended bigA 0).2.2.2 (by rw [bigA_length]; decide)
      (by rw [hli]; decide)⟩

/-! ## C6: seed mode -/

theorem seedStep_alerts (source : Source) (now : String) (st : State) (url : String) :
    (seedStep source now st url).alertedSources = st.alertedSources := by
  unfold seedStep
  split <;> rfl

theorem seedStep_mono (source : Source) (now : String) (st : State) (url k : String)
    (hk : recHas st.seen k = true) : recHas (seedStep source now st url).seen k = true := by
  unfold seedStep
  split
  · exact recHas_recSet_mono _ _ _ _ hk
  · exact hk

theorem seedStep_marks (source : Source) (now : String) (st : State) (url : String) :
    recHas (seedStep source now st url).seen (articleId url) = true := by
  unfold seedStep
  by_cases h : isArticleSeen st url = true
  · simp only [h, Bool.not_true, Bool.false_eq_true, if_false]
    simpa [isArticleSeen] using h
  · simp only [Bool.not_eq_true] at h
    simp only [h, Bool.not_false, if_true]
    exact recHas_recSet_self _ _ _

theorem seedStep_get (source : Source) (now : String) (st : State) (url k : String) :
    recGet (seedStep source now st url).seen k = recGet st.seen k ∨
    ∃ r, recGet (seedStep source now st url).seen k = some r ∧
      r.title = "(seeded)" ∧ r.source = source.name ∧
      r.contentType = source.contentType ∧ r.postedAt = now := by
  unfold seedStep
  by_cases h : isArticleSeen st url = true
  · simp only [h, Bool.not_true, Bool.false_eq_true, if_false]
    left; trivial
  · simp only [Bool.not_eq_true] at h
    simp only [h, Bool.not_false, if_true]
    by_cases hk : k = articleId url
    · subst hk
      right
      exact ⟨_, recGet_recSet_self _ _ _, rfl, rfl, rfl, rfl⟩
    · left
      exact recGet_recSet_ne _ _ _ _ hk

theorem seedLoop_alerts (source : Source) (now : String) :
    ∀ (urls : List String) (st : State),
      (seedLoop source now urls st).alertedSources = st.alertedSources := by
  intro urls
  induction urls with
  | nil => intro st; rfl
  | cons u t ih =>
    intro st
    show (seedLoop source now t (seedStep source now st u)).alertedSources = st.alertedSources
    rw [ih, seedStep_alerts]

theorem seedLoop_mono (source : Source) (now : String) :
    ∀ (urls : List String) (st : State) (k : String),
      recHas st.seen k = true → recHas (seedLoop source now urls st).seen k = true := by
  intro urls
  induction urls with
  | nil => intro st k hk; exact hk
  | cons u t ih =>
    intro st k hk
    exact ih _ k (seedStep_mono source now st u k hk)

theorem seedLoop_marks (source : Source) (now : String) :
    ∀ (urls : List String) (st : State),
      ∀ url ∈ urls, recHas (seedLoop source now urls st).seen (articleId url) = true := by
  intro urls
  induction urls with
  | nil => intro st url hmem; cases hmem
  | cons u t ih =>
    intro st url hmem
    rcases List.mem_cons.mp hmem with rfl | hmem'
    · exact seedLoop_mono source now t _ _ (seedStep_marks source now st url)
    · exact ih _ url hmem'

theorem seedLoop_get (source : Source) (now : String) :
    ∀ (urls : List String) (st : State) (k : String),
      recGet (seedLoop source now urls st).seen k = recGet st.seen k ∨
      ∃ r, recGet (seedLoop source now urls st).seen k = some r ∧
        r.title = "(seeded)" ∧ r.source = source.name ∧
        r.contentType = source.contentType ∧ r.postedAt = now := by
  intro urls
  induction urls with
  | nil => intro st k; left; rfl
  | cons u t ih =>
    intro st k
    show recGet (seedLoop source now t (seedStep source now st u)).seen k = recGet st.seen k ∨
      ∃ r, recGet (seedLoop source now t (seedStep source now st u)).seen k = some r ∧
        r.title = "(seeded)" ∧ r.source = source.name ∧
        r.contentType = source.contentType ∧ r.postedAt = now
    rcases ih (seedStep source now st u) k with heq | hseeded
    · rcases seedStep_get source now st u k with hstep | ⟨r, hr, hsh⟩
      · left
        rw [heq, hstep]
      · right
        exact ⟨r, by rw [heq]; exact hr, hsh⟩
    · right
      exact hseeded

/-- C6: `seedSource` performs no collaborator calls at all (its trace is
empty, so in particular there are zero summarize/research/publish calls),
leaves the alert mapping untouched, marks every fetched candidate URL as
seen, and gives every previously-unseen URL a record with the placeholder
title `(seeded)`, the source's name and the source's content
classification. -/
theorem seedSource_no_side_effects (source : Source) (urls : List String)
    (s : State) (now : String) :
    (seedSource source urls s now).2 = [] ∧
    (seedSource source urls s now).1.alertedSources = s.alertedSources ∧
    (∀ url ∈ urls, isArticleSeen (seedSource source urls s now).1 url = true) ∧
    (∀ url ∈ urls, isArticleSeen s url = false →
      ∃ r, recGet (seedSource source urls s now).1.seen (articleId url) = some r ∧
        r.title = "(seeded)" ∧ r.source = source.name ∧
        r.contentType = source.contentType ∧ r.postedAt = now) := by
  cases urls with
  | nil =>
    refine ⟨rfl, rfl, ?_, ?_⟩
    · intro url hmem; cases hmem
    · intro url hmem; cases hmem
  | cons u t =>
    have hlen : (((u :: t).length == 0) = false) := by simp
    refine ⟨by simp [seedSource, hlen], ?_, ?_, ?_⟩
    · simp only [seedSource, hlen, Bool.false_eq_true, if_false]
      exact seedLoop_alerts source now (u :: t) s
    · intro url hmem
      simp only [seedSource, hlen, Bool.false_eq_true, if_false]
      exact seedLoop_marks source now (u :: t) s url hmem
    · intro url hmem hunseen
      simp only [seedSource, hlen, Bool.false_eq_true, if_false]
      have hnone : recGet s.seen (articleId url) = none :=
        recGet_eq_none_of_not_has _ _ (by simpa [isArticleSeen] using hunseen)
      have hhas : recHas (seedLoop source now (u :: t) s).seen (articleId url) = true :=
        seedLoop_marks source now (u :: t) s url hmem
      obtain ⟨v, hv⟩ := recGet_isSome_of_has _ _ hhas
      rcases seedLoop_get source now (u :: t) s (articleId url) with heq | hseeded
      · rw [heq, hnone] at hv
        cases hv
      · exact hseeded

/-- A demonstration source for witnesses. -/
def demoSource : Source := ⟨"A", "http://a.example/", "a.post", "http://a.example", ContentType.technical, none⟩

/-- Witness for C6 at a concrete source, URL list and state. -/
theorem seedSource_no_side_effects_witness :
    isArticleSeen (seedSource demoSource [("u")] emptyState ("t")).1 ("u") = true ∧
    (∃ r, recGet (seedSource demoSource [("u")] emptyState ("t")).1.seen (articleId ("u")) =
        some r ∧ r.title = "(seeded)" ∧ r.source = demoSource.name ∧
        r.contentType = demoSource.contentType ∧ r.postedAt = ("t")) :=
  ⟨(seedSource_no_side_effects demoSource [("u")] emptyState ("t")).2.2.1 ("u")
      (List.mem_singleton.mpr rfl),
   (seedSource_no_side_effects demoSource [("u")] emptyState ("t")).2.2.2 ("u")
      (List.mem_singleton.mpr rfl) rfl⟩

/-! ## C4: alert episodes -/

theorem processArticle_alerts (collab : Collaborators) (sn : String) (ct : ContentType)
    (st : State) (url : String) :
    (processArticle collab sn ct st url).1.alertedSources = st.alertedSources := by
  unfold processArticle
  cases collab.fetchArticleContent url with
  | error e => rfl
  | ok article =>
    try dsimp only
    cases collab.generateSummaries article.content article.title ct with
    | error e => rfl
    | ok summaries =>
      try dsimp only
      cases collab.runAgenticResearch article.content article.title ct with
      | error e => rfl
      | ok researchContext =>
        try dsimp only
        cases collab.postArticleThread article.title url sn ct summaries researchContext with
        | error e => rfl
        | ok thread =>
          try dsimp only
          cases thread with
          | none => rfl
          | some ts =>
            try dsimp only
            cases collab.imageGenEnabled with
            | false => rfl
            | true =>
              try dsimp only
              cases collab.imageGen ts with
              | error e => rfl
              | ok u => rfl

theorem processArticle_countP (collab : Collaborators) (sn : String) (ct : ContentType)
    (st : State) (url : String) :
    (processArticle collab sn ct st url).2.countP Eff.isSend = 0 ∧
    (processArticle collab sn ct st url).2.countP Eff.isSave = 0 := by
  unfold processArticle
  cases collab.fetchArticleContent url with
  | error e => exact ⟨rfl, rfl⟩
  | ok article =>
    try dsimp only
    cases collab.generateSummaries article.content article.title ct with
    | error e => exact ⟨rfl, rfl⟩
    | ok summaries =>
      try dsimp only
      cases collab.runAgenticResearch article.content article.title ct with
      | error e => exact ⟨rfl, rfl⟩
      | ok researchContext =>
        try dsimp only
        cases collab.postArticleThread article.title url sn ct summaries researchContext with
        | error e => exact ⟨rfl, rfl⟩
        | ok thread =>
          try dsimp only
          cases thread with
          | none => exact ⟨rfl, rfl⟩
          | some ts =>
            try dsimp only
            cases collab.imageGenEnabled with
            | false => exact ⟨rfl, rfl⟩
            | true =>
              try dsimp only
              cases collab.imageGen ts with
              | error e => exact ⟨rfl, rfl⟩
              | ok u => exact ⟨rfl, rfl⟩

theorem articleLoop_alerts (collab : Collaborators) (sn : String) (ct : ContentType) :
    ∀ (urls : List String) (st : State),
      (articleLoop collab sn ct urls st).1.alertedSources = st.alertedSources := by
  intro urls
  induction urls with
  | nil => intro st; rfl
  | cons u t ih =>
    intro st
    show (articleLoop collab sn ct t (processArticle collab sn ct st u).1).1.alertedSources = _
    rw [ih, processArticle_alerts]

theorem articleLoop_countP (collab : Collaborators) (sn : String) (ct : ContentType)
    (p : Eff → Bool)
    (hp : ∀ st url, (processArticle collab sn ct st url).2.countP p = 0) :
    ∀ (urls : List String) (st : State),
      (articleLoop collab sn ct urls st).2.countP p = 0 := by
  intro urls
  induction urls with
  | nil => intro st; rfl
  | cons u t ih =>
    intro st
    show ((processArticle collab sn ct st u).2 ++
      (articleLoop collab sn ct t (processArticle collab sn ct st u).1).2).countP p = 0
    rw [List.countP_append, hp, ih]

theorem isSourceAlerted_of_eq (s1 s2 : State) (hn : s1.alertedSources = s2.alertedSources)
    (n : String) : isSourceAlerted s1 n = isSourceAlerted s2 n := by
  unfold isSourceAlerted
  rw [hn]

theorem recGet_recDelete_self {V : Type} (m : RecordMap V) (k : String) :
    recGet (recDelete m k) k = none := by
  induction m with
  | nil => rfl
  | cons p t ih =>
    by_cases h : (p.1 == k) = true
    · have hb : (p.1 != k) = false := by simp [bne, h]
      simp only [recDelete, List.filter_cons, hb, Bool.false_eq_true, if_false]
      exact ih
    · simp only [Bool.not_eq_true] at h
      have hb : (p.1 != k) = true := by simp [bne, h]
      simp only [recDelete, List.filter_cons, hb, if_true]
      show recGet ((p :: List.filter (fun p => p.1 != k) t) : RecordMap V) k = none
      rw [recGet, List.find?_cons_of_neg _ (by simp [h])]
      exact ih

theorem isSourceAlerted_clear (s : State) (n : String) :
    isSourceAlerted (clearSourceAlert s n) n = false := by
  cases h : s.alertedSources with
  | none => simp [clearSourceAlert, h, isSourceAlerted]
  | some m => simp [clearSourceAlert, h, isSourceAlerted, recGet_recDelete_self]

theorem isSourceAlerted_mark (s : State) (n now : String) :
    isSourceAlerted (markSourceAlerted s n now) n = (now != "") := by
  unfold isSourceAlerted markSourceAlerted
  simp [recGet_recSet_self]

/-- Iterated model: `N` consecutive runs of `processSource` in which `fetchArticleUrls`
yields zero candidates, threading the state and concatenating traces. -/
def zeroRuns (collab : Collaborators) (source : Source) : Nat → State → State × List Eff
  | 0, s => (s, [])
  | n + 1, s =>
    let r := processSource collab source [] s
    let r2 := zeroRuns collab source n r.1
    (r2.1, r.2 ++ r2.2)

theorem processSource_zero_unalerted (collab : Collaborators) (source : Source) (s : State)
    (h : isSourceAlerted s source.name = false) :
    processSource collab source [] s =
      (markSourceAlerted s source.name collab.now, [.sendMsg (scraperAlertText source)]) := by
  unfold processSource
  simp [h]

theorem processSource_zero_alerted (collab : Collaborators) (source : Source) (s : State)
    (h : isSourceAlerted s source.name = true) :
    processSource collab source [] s = (s, []) := by
  unfold processSource
  simp [h]

theorem zeroRuns_alerted (collab : Collaborators) (source : Source) (s : State)
    (h : isSourceAlerted s source.name = true) :
    ∀ n, zeroRuns collab source n s = (s, []) := by
  intro n
  induction n with
  | zero => rfl
  | succ m ih =>
    show ((zeroRuns collab source m (processSource collab source [] s).1).1,
      (processSource collab source [] s).2 ++
        (zeroRuns collab source m (processSource collab source [] s).1).2) = (s, [])
    rw [processSource_zero_alerted collab source s h]
    simpa using ih

theorem zeroRuns_one_alert (collab : Collaborators) (source : Source) (s : State)
    (hnow : collab.now ≠ "") (h : isSourceAlerted s source.name = false) :
    ∀ n, 1 ≤ n → (zeroRuns collab source n s).2.countP Eff.isSend = 1 := by
  intro n hn
  cases n with
  | zero => omega
  | succ m =>
    show ((processSource collab source [] s).2 ++
      (zeroRuns collab source m (processSource collab source [] s).1).2).countP Eff.isSend = 1
    rw [processSource_zero_unalerted collab source s h]
    have halerted : isSourceAlerted (markSourceAlerted s source.name collab.now)
        source.name = true := by
      rw [isSourceAlerted_mark]
      exact bne_iff_ne.mpr hnow
    rw [zeroRuns_alerted collab source _ halerted m]
    rfl

theorem processSource_nonzero_clears (collab : Collaborators) (source : Source)
    (u : String) (t : List String) (s : State) :
    isSourceAlerted (processSource collab source (u :: t) s).1 source.name = false ∧
    (processSource collab source (u :: t) s).2.countP Eff.isSend = 0 := by
  have hlen : (((u :: t).length == 0) = false) := by simp
  have hstate1 : ∀ s1 : State,
      (s1 = if isSourceAlerted s source.name then clearSourceAlert s source.name else s) →
      isSourceAlerted s1 source.name = false := by
    intro s1 hs1
    by_cases ha : isSourceAlerted s source.name = true
    · rw [hs1, if_pos ha]
      exact isSourceAlerted_clear s source.name
    · simp only [Bool.not_eq_true] at ha
      rw [hs1, if_neg (by simp [ha]), ha]
  unfold processSource
  simp only [hlen, Bool.false_eq_true, if_false]
  by_cases hnu : (((u :: t).filter (fun url => !(isArticleSeen
      (if isSourceAlerted s source.name then clearSourceAlert s source.name else s)
        url))).length == 0) = true
  · simp only [hnu, if_true]
    exact ⟨hstate1 _ rfl, rfl⟩
  · simp only [Bool.not_eq_true] at hnu
    simp only [hnu, Bool.false_eq_true, if_false]
    constructor
    · rw [isSourceAlerted_of_eq _ _ (articleLoop_alerts collab source.name source.contentType _ _)
        source.name]
      exact hstate1 _ rfl
    · exact articleLoop_countP collab source.name source.contentType Eff.isSend
        (fun st url => (processArticle_countP collab source.name source.contentType st url).1) _ _

/-- C4: zero candidates with no active alert post exactly one alert and
latch it; zero candidates with an active alert stay silent and leave the
state unchanged; at least one candidate clears the alert (and sends
nothing); across `N ≥ 1` consecutive zero-candidate runs exactly one alert
message is emitted; after a recovery run, a zero-candidate run emits
exactly one new alert. -/
theorem processSource_alert_episode (collab : Collaborators) (source : Source)
    (urls : List String) (s : State) (n : Nat) :
    (urls = [] → isSourceAlerted s source.name = false →
      processSource collab source urls s =
        (markSourceAlerted s source.name collab.now,
         [.sendMsg (scraperAlertText source)])) ∧
    (urls = [] → isSourceAlerted s source.name = true →
      processSource collab source urls s = (s, [])) ∧
    (urls ≠ [] →
      isSourceAlerted (processSource collab source urls s).1 source.name = false ∧
      (processSource collab source urls s).2.countP Eff.isSend = 0) ∧
    (collab.now ≠ "" → isSourceAlerted s source.name = false → 1 ≤ n →
      (zeroRuns collab source n s).2.countP Eff.isSend = 1) ∧
    (collab.now ≠ "" → urls ≠ [] →
      (zeroRuns collab source 1 (processSource collab source urls s).1).2.countP
        Eff.isSend = 1) := by
  refine ⟨?_, ?_, ?_, ?_, ?_⟩
  · rintro rfl h
    exact processSource_zero_unalerted collab source s h
  · rintro rfl h
    exact processSource_zero_alerted collab source s h
  · intro hne
    cases urls with
    | nil => exact absurd rfl hne
    | cons u t => exact processSource_nonzero_clears collab source u t s
  · intro hnow h hn
    exact zeroRuns_one_alert collab source s hnow h n hn
  · intro hnow hne
    cases urls with
    | nil => exact absurd rfl hne
    | cons u t =>
      exact zeroRuns_one_alert collab source _ hnow
        (processSource_nonzero_clears collab source u t s).1 1 (by omega)

/-- Minimal collaborators for witnesses: every external call throws, image
generation disabled, a fixed non-empty clock reading. -/
def demoCollab : Collaborators :=
  ⟨fun _ => .error ("net"), fun _ _ _ => .error ("llm"), fun _ _ _ => .error ("llm"),
   fun _ _ _ _ _ _ => .error ("slack"), fun _ => .error ("img"), fun _ => .error ("bad url"),
   false, "2024-01-01T00:00:00.000Z"⟩

/-- Witness for C4: a first zero-candidate run alerts and latches; two
consecutive zero-candidate runs still emit exactly one alert. -/
theorem processSource_alert_episode_witness :
    processSource demoCollab demoSource [] emptyState =
      (markSourceAlerted emptyState demoSource.name demoCollab.now,
       [.sendMsg (scraperAlertText demoSource)]) ∧
    (zeroRuns demoCollab demoSource 2 emptyState).2.countP Eff.isSend = 1 :=
  ⟨(processSource_alert_episode demoCollab demoSource [] emptyState 2).1 rfl rfl,
   (processSource_alert_episode demoCollab demoSource [] emptyState 2).2.2.2.1
     (by decide) rfl (by omega)⟩

/-! ## C5: per-source isolation and save-once -/

theorem runSources_no_save (seedMode : Bool)
    (perSource : Source → State → Except String (State × List Eff))
    (hstep : ∀ src st r, perSource src st = .ok r → r.2.countP Eff.isSave = 0) :
    ∀ (sources : List Source) (state : State),
      ((runSources seedMode perSource sources state).2.2).countP Eff.isSave = 0 := by
  intro sources
  induction sources with
  | nil => intro state; rfl
  | cons src rest ih =>
    intro state
    simp only [runSources]
    cases h : perSource src state with
    | ok r =>
      try dsimp only
      rw [List.countP_append, ih, hstep src state r h]
    | error e =>
      try dsimp only
      have hpre : (if seedMode then ([] : List Eff)
          else [.sendMsg (scraperErrorText src e)]).countP Eff.isSave = 0 := by
        cases seedMode <;> rfl
      rw [List.countP_append, hpre, ih]

theorem processSource_no_save (collab : Collaborators) (source : Source)
    (urls : List String) (st : State) :
    (processSource collab source urls st).2.countP Eff.isSave = 0 := by
  cases urls with
  | nil =>
    by_cases h : isSourceAlerted st source.name = true
    · rw [processSource_zero_alerted collab source st h]
      rfl
    · simp only [Bool.not_eq_true] at h
      rw [processSource_zero_unalerted collab source st h]
      rfl
  | cons u t =>
    have hlen : (((u :: t).length == 0) = false) := by simp
    unfold processSource
    simp only [hlen, Bool.false_eq_true, if_false]
    by_cases hnu : (((u :: t).filter (fun url => !(isArticleSeen
        (if isSourceAlerted st source.name then clearSourceAlert st source.name else st)
          url))).length == 0) = true
    · simp only [hnu, if_true]
      rfl
    · simp only [Bool.not_eq_true] at hnu
      simp only [hnu, Bool.false_eq_true, if_false]
      exact articleLoop_countP collab source.name source.contentType Eff.isSave
        (fun st url => (processArticle_countP collab source.name source.contentType st url).2) _ _

theorem seedSource_no_save (source : Source) (urls : List String) (st : State)
    (now : String) :
    (seedSource source urls st now).2.countP Eff.isSave = 0 := by
  unfold seedSource
  split <;> rfl

/-- C5: `saveState` happens exactly once per run, after the whole
per-source loop, provided no per-source body itself saves (the real bodies
do not — last conjunct); a per-source exception leaves the threaded state
untouched for the remaining sources, increments `failed`, and emits a
scraper-error notification exactly when not in seed mode; a per-source
success threads its new state into the remaining sources. -/
theorem runScrapeCheck_isolation_and_save (seedMode : Bool)
    (perSource : Source → State → Except String (State × List Eff))
    (hstep : ∀ src st r, perSource src st = .ok r → r.2.countP Eff.isSave = 0)
    (sources : List Source) (state0 : State) (src : Source) (rest : List Source)
    (e : String) (collab : Collaborators) (source : Source) (urls : List String)
    (st : State) :
    (∃ body, (runScrapeCheck seedMode perSource sources state0).2.2 =
        body ++ [Eff.save (runScrapeCheck seedMode perSource sources state0).2.1] ∧
        body.countP Eff.isSave = 0) ∧
    (perSource src state0 = .error e →
      (runScrapeCheck seedMode perSource (src :: rest) state0).2.1 =
        (runScrapeCheck seedMode perSource rest state0).2.1 ∧
      (runScrapeCheck seedMode perSource (src :: rest) state0).1.1 =
        (runScrapeCheck seedMode perSource rest state0).1.1 ∧
      (runScrapeCheck seedMode perSource (src :: rest) state0).1.2 =
        (runScrapeCheck seedMode perSource rest state0).1.2 + 1 ∧
      (runScrapeCheck seedMode perSource (src :: rest) state0).2.2 =
        (if seedMode then [] else [Eff.sendMsg (scraperErrorText src e)]) ++
          (runScrapeCheck seedMode perSource rest state0).2.2) ∧
    (∀ r, perSource src state0 = .ok r →
      (runScrapeCheck seedMode perSource (src :: rest) state0).2.1 =
        (runScrapeCheck seedMode perSource rest r.1).2.1 ∧
      (runScrapeCheck seedMode perSource (src :: rest) state0).1.2 =
        (runScrapeCheck seedMode perSource rest r.1).1.2 ∧
      (runScrapeCheck seedMode perSource (src :: rest) state0).2.2 =
        r.2 ++ (runScrapeCheck seedMode perSource rest r.1).2.2) ∧
    ((processSource collab source urls st).2.countP Eff.isSave = 0 ∧
      (seedSource source urls st collab.now).2.countP Eff.isSave = 0) := by
  refine ⟨?_, ?_, ?_, ?_⟩
  · exact ⟨(runSources seedMode perSource sources state0).2.2, rfl,
      runSources_no_save seedMode perSource hstep sources state0⟩
  · intro he
    have hr : runSources seedMode perSource (src :: rest) state0 =
        (((runSources seedMode perSource rest state0).1.1,
          (runSources seedMode perSource rest state0).1.2 + 1),
         (runSources seedMode perSource rest state0).2.1,
         (if seedMode then [] else [Eff.sendMsg (scraperErrorText src e)]) ++
           (runSources seedMode perSource rest state0).2.2) := by
      simp only [runSources, he]
    refine ⟨?_, ?_, ?_, ?_⟩ <;> simp [runScrapeCheck, hr, List.append_assoc]
  · intro r hok
    have hr : runSources seedMode perSource (src :: rest) state0 =
        (((runSources seedMode perSource rest r.1).1.1 +
            ((r.1.seen.length : Int) - (state0.seen.length : Int)),
          (runSources seedMode perSource rest r.1).1.2),
         (runSources seedMode perSource rest r.1).2.1,
         r.2 ++ (runSources seedMode perSource rest r.1).2.2) := by
      simp only [runSources, hok]
    refine ⟨?_, ?_, ?_⟩ <;> simp [runScrapeCheck, hr, List.append_assoc]
  · exact ⟨processSource_no_save collab source urls st,
      seedSource_no_save source urls st collab.now⟩

/-- A per-source oracle for witnesses: the source named `bad` always
throws, every other source succeeds without touching the state. -/
def demoPerSource : Source → State → Except String (State × List Eff) :=
  fun src st => if src.name == "bad" then .error ("boom") else .ok (st, [])

/-- A source whose processing always throws, for witnesses. -/
def badSource : Source :=
  ⟨"bad", "http://b.example/", "a.post", "http://b.example", ContentType.technical, none⟩

theorem demoPerSource_no_save :
    ∀ src st r, demoPerSource src st = .ok r → r.2.countP Eff.isSave = 0 := by
  intro src st r h
  by_cases hb : (src.name == "bad") = true
  · simp [demoPerSource, hb] at h
  · simp only [Bool.not_eq_true] at hb
    simp only [demoPerSource, hb, Bool.false_eq_true, if_false, Except.ok.injEq] at h
    rw [← h]
    rfl

/-- Witness for C5: with a throwing first source, the run still saves
exactly once and the failure counter is one higher than the run without
that source. -/
theorem runScrapeCheck_isolation_and_save_witness :
    (∃ body, (runScrapeCheck false demoPerSource [badSource, demoSource] emptyState).2.2 =
        body ++ [Eff.save
          (runScrapeCheck false demoPerSource [badSource, demoSource] emptyState).2.1] ∧
        body.countP Eff.isSave = 0) ∧
    (runScrapeCheck false demoPerSource (badSource :: [demoSource]) emptyState).1.2 =
      (runScrapeCheck false demoPerSource [demoSource] emptyState).1.2 + 1 := by
  have herr : demoPerSource badSource emptyState = .error ("boom") := by
    simp [demoPerSource, badSource]
  exact ⟨(runScrapeCheck_isolation_and_save false demoPerSource demoPerSource_no_save
      [badSource, demoSource] emptyState badSource [demoSource] ("boom") demoCollab
      demoSource [] emptyState).1,
    ((runScrapeCheck_isolation_and_save false demoPerSource demoPerSource_no_save
      [badSource, demoSource] emptyState badSource [demoSource] ("boom") demoCollab
      demoSource [] emptyState).2.1 herr).2.2.1⟩

/-! ## C3: manual URL, primary-channel isolation -/

theorem processManualUrl_nonprimary_eq (collab : Collaborators) (config : Config)
    (s1 s2 : State) (url : String) (ct : ContentType) (c : String)
    (hb : (jsOrOpt (some c) config.slackChannelId == config.slackChannelId) = false) :
    processManualUrl collab (.ok config) s1 url ct (some c) =
      processManualUrl collab (.ok config) s2 url ct (some c) := by
  unfold processManualUrl
  simp only [hb, Bool.false_and, Bool.false_eq_true, if_false]

theorem processManualUrl_nonprimary_no_save (collab : Collaborators) (config : Config)
    (s : State) (url : String) (ct : ContentType) (c : String)
    (hb : (jsOrOpt (some c) config.slackChannelId == config.slackChannelId) = false) :
    ∀ st, Eff.save st ∉ (processManualUrl collab (.ok config) s url ct (some c)).2 := by
  intro st
  unfold processManualUrl
  simp only [hb, Bool.false_and, Bool.false_eq_true, if_false]
  cases collab.fetchArticleContent url with
  | error d => simp
  | ok article =>
    try dsimp only
    cases collab.generateSummaries article.content article.title ct with
    | error d => simp
    | ok summaries =>
      try dsimp only
      cases collab.runAgenticResearch article.content article.title ct with
      | error d => simp
      | ok researchContext =>
        try dsimp only
        cases collab.parseDomain url with
        | error d => simp
        | ok domain =>
          try dsimp only
          cases collab.postArticleThread article.title url domain ct summaries
              researchContext with
          | error d => simp
          | ok thread =>
            try dsimp only
            cases thread with
            | none => simp
            | some ts =>
              try dsimp only
              cases config.imageGenEnabled with
              | false => simp
              | true =>
                try dsimp only
                cases collab.imageGen ts with
                | error d => simp
                | ok u => simp

/-- C3: posting to a non-primary channel neither consults nor updates the
seen store (the outcome is independent of the loaded state and `saveState`
is never reached); posting an already-seen URL to the primary channel is
rejected with `Article already processed` before any fetch, summarize,
research or publish call (the trace is empty). -/
theorem processManualUrl_primary_isolation (collab : Collaborators) (config : Config)
    (url : String) (ct : ContentType) (c : String) (s1 s2 : State) (ch : Option String) :
    (c ≠ "" → c ≠ config.slackChannelId →
      (processManualUrl collab (.ok config) s1 url ct (some c) =
        processManualUrl collab (.ok config) s2 url ct (some c)) ∧
      (∀ st, Eff.save st ∉ (processManualUrl collab (.ok config) s1 url ct (some c)).2)) ∧
    (jsOrOpt ch config.slackChannelId = config.slackChannelId →
      isArticleSeen s1 url = true →
      processManualUrl collab (.ok config) s1 url ct ch =
        ({ success := false, message := "Article already processed" }, [])) := by
  constructor
  · intro h1 h2
    have hv : jsOrOpt (some c) config.slackChannelId = c := by
      simp [jsOrOpt, jsOrStr, beq_eq_false_iff_ne.mpr h1]
    have hb : (jsOrOpt (some c) config.slackChannelId == config.slackChannelId) = false := by
      rw [hv]
      exact beq_eq_false_iff_ne.mpr h2
    exact ⟨processManualUrl_nonprimary_eq collab config s1 s2 url ct c hb,
      processManualUrl_nonprimary_no_save collab config s1 url ct c hb⟩
  · intro hp hseen
    have hb : (jsOrOpt ch config.slackChannelId == config.slackChannelId) = true := by
      rw [hp]
      exact beq_self_eq_true _
    unfold processManualUrl
    simp only [hb, Bool.true_and, hseen, if_true]

/-- The primary channel configuration used by witnesses. -/
def demoConfig : Config := ⟨"C0", false⟩

/-- Witness for C3: a non-primary post gives the same outcome from two
different loaded states, and a primary post of an already-seen URL is
rejected. -/
theorem processManualUrl_primary_isolation_witness :
    (processManualUrl demoCollab (.ok demoConfig) demoSeenState ("u")
        ContentType.technical (some ("C1")) =
      processManualUrl demoCollab (.ok demoConfig) emptyState ("u")
        ContentType.technical (some ("C1"))) ∧
    processManualUrl demoCollab (.ok demoConfig) demoSeenState ("u")
        ContentType.technical none =
      ({ success := false, message := "Article already processed" }, []) := by
  have hseen : isArticleSeen demoSeenState ("u") = true := by
    simp [demoSeenState, isArticleSeen, recHas]
  exact ⟨((processManualUrl_primary_isolation demoCollab demoConfig ("u")
      ContentType.technical ("C1") demoSeenState emptyState none).1
        (by decide) (by decide)).1,
    (processManualUrl_primary_isolation demoCollab demoConfig ("u")
      ContentType.technical ("C1") demoSeenState emptyState none).2 rfl hseen⟩

end NewsBot
